import Mathlib

set_option maxRecDepth 40000

/-!
Shallow embedding of `lib/monitor.js` from the pm2-gui repository.

JavaScript strings are modelled as lists of characters (`JStr`), JS objects
used as string-keyed dictionaries are modelled as association lists, and the
asynchronous event-loop behaviours (timers, socket events, stream callbacks)
are modelled as explicit transition systems stepped by event lists.  JS
`undefined` is modelled as `Option.none` where a property may be absent.
-/

namespace Pm2Gui

/-- A JavaScript string, modelled as a list of characters. -/
abbrev JStr := List Char

/-- The decimal digit character for `d`, as used by JS number printing. -/
def digitChar (d : Nat) : Char := Char.ofNat (48 + d)

/-- Fuelled decimal printer: prepends the decimal digits of `n` to `acc`.
The fuel argument only serves to make the recursion structural; any fuel
above `n` gives the digits of `n`. -/
def digitsGo : Nat → Nat → JStr → JStr
  | 0, _, acc => acc
  | fuel + 1, n, acc =>
    if n < 10 then digitChar n :: acc
    else digitsGo fuel (n / 10) (digitChar (n % 10) :: acc)

/-- JS `String(n)` for a natural number `n` (decimal digits). -/
def digitsOf (n : Nat) : JStr := digitsGo (n + 1) n []

/-- Numeric value of a string of decimal digits (the semantic reading of the
port string returned by node's `url.parse`). -/
def parseNat (s : JStr) : Nat := s.foldl (fun a c => 10 * a + (c.toNat - 48)) 0

/-- Decimal digit test on a character. -/
def isDigitC (c : Char) : Bool := decide (48 ≤ c.toNat ∧ c.toNat ≤ 57)

/-- ASCII lower-casing of one character; node's `url.parse` lower-cases the
host name of a parsed URL this way. -/
def lcChar (c : Char) : Char :=
  if 65 ≤ c.toNat ∧ c.toNat ≤ 90 then Char.ofNat (c.toNat + 32) else c

/-- Characters of a well-formed lower-case host name (lower-case letters,
digits, dots, hyphens): the fragment of host names that both round-trip
through node's `url.parse` untouched and occur in practice. -/
def hostCharB (c : Char) : Bool :=
  decide ((97 ≤ c.toNat ∧ c.toNat ≤ 122) ∨ (48 ≤ c.toNat ∧ c.toNat ≤ 57) ∨
    c.toNat = 46 ∨ c.toNat = 45)

/-- Boolean test that `pat` begins the string `s` (first argument is the
pattern, second the scanned string). -/
def lstarts : JStr → JStr → Bool
  | [], _ => true
  | _ :: _, [] => false
  | p :: ps, c :: cs => p == c && lstarts ps cs

/-- Splitting of a string at the LAST occurrence of `ch`: models the
`lastIndexOf` / `slice` pair of `Monitor.parseConnectionString`.  Returns
`none` when `ch` does not occur at all (`lastIndexOf` returns `-1`). -/
def lastSplitAt (ch : Char) : JStr → Option (JStr × JStr)
  | [] => none
  | c :: rest =>
    match lastSplitAt ch rest with
    | some (pre, post) => some (c :: pre, post)
    | none => if c == ch then some ([], rest) else none

/-- The structured endpoint descriptor consumed by
`Monitor.toConnectionString` (monitor.js 616-624).  Fields that JS callers
may leave `undefined` or empty are plain strings, with the empty string
playing the role of a falsy value (exactly what `||` tests in the source);
the numeric `port` may be absent (`undefined`), hence `Option Nat`. -/
structure Endpoint where
  protocol : JStr
  hostname : JStr
  port : Option Nat
  path : JStr
  nsp : JStr
  authorization : JStr
deriving DecidableEq

/-- JS string interpolation of the port field: a number prints its decimal
digits, `undefined` prints the literal text `undefined`. -/
def portChunk : Option Nat → JStr
  | some p => digitsOf p
  | none => "undefined".toList

/-- `Monitor.toConnectionString` (monitor.js 616-624): builds
`protocol//hostname:port path namespace` with `http:` and `127.0.0.1` as
falsy-defaults, then appends `?auth=...` (or `&auth=...` when a `?` already
occurs at a positive index) when `authorization` is non-empty. -/
def toConnectionString (e : Endpoint) : JStr :=
  let uri := (if e.protocol.isEmpty then "http:".toList else e.protocol) ++
    "//".toList ++
    (if e.hostname.isEmpty then "127.0.0.1".toList else e.hostname) ++
    ":".toList ++ portChunk e.port ++ e.path ++ e.nsp
  if e.authorization.isEmpty then uri
  else
    uri ++
      (match uri.findIdx? (· == '?') with
        | some i => if 0 < i then "&".toList else "?".toList
        | none => "?".toList) ++
      "auth=".toList ++ e.authorization

/-- Result of node's legacy `url.parse` on the fields the monitor reads.
`port` is `none` when the URL carries no explicit port (node returns
`null`); `path` is the part after the authority, query string included,
hash excluded (node's `path` is `pathname + search`; a `null` path is
modelled as the empty string, which lodash's `trimLeft` treats alike). -/
structure UrlParts where
  protocol : JStr
  hostname : JStr
  port : Option Nat
  path : JStr
deriving DecidableEq

/-- Character test used to cut the scheme of a URL. -/
def notColon (c : Char) : Bool := c != ':'

/-- Characters allowed inside the authority component of a URL. -/
def authorityChar (c : Char) : Bool := c != '/' && c != '?' && c != '#'

/-- Character test used to cut the hash fragment off the path. -/
def notHash (c : Char) : Bool := c != '#'

/-- Host / port split of a URL authority: when the authority ends in a
non-empty run of digits directly preceded by a colon, that run is the port
and the part before the colon is the host; otherwise the whole authority is
the host and there is no port.  This models node's `url.parse` on the
well-formed authorities the monitor produces and consumes. -/
def splitHostPort (authority : JStr) : JStr × Option Nat :=
  let r := authority.reverse
  let ds := r.takeWhile isDigitC
  if ds.isEmpty then (authority, none)
  else
    match (r.drop ds.length).head? with
    | some c =>
      if c == ':' then ((r.drop (ds.length + 1)).reverse, some (parseNat ds.reverse))
      else (authority, none)
    | none => (authority, none)

/-- Model of node's legacy `url.parse` restricted to the shapes reachable
from `Monitor.parseConnectionString` (the scanned string always carries an
`http(s)://` scheme there): scheme up to the first colon, then an optional
`//`, then the authority up to the first `/`, `?` or `#`, then the path.
The scheme and host are lower-cased as node does. -/
def urlParse (s : JStr) : UrlParts :=
  let scheme := s.takeWhile notColon
  let afterScheme := s.drop (scheme.length + 1)
  let rest := if lstarts "//".toList afterScheme then afterScheme.drop 2 else afterScheme
  let authority := rest.takeWhile authorityChar
  let tail0 := rest.drop authority.length
  let hp := splitHostPort authority
  { protocol := scheme.map lcChar ++ ":".toList
    hostname := hp.1.map lcChar
    port := hp.2
    path := tail0.takeWhile notHash }

/-- The connection object built by `Monitor.parseConnectionString`
(monitor.js 631-654).  `port` is `Option Nat` because the source first
stores the number `8088` and then overwrites it with `url.parse`'s port,
which is `null` when the string has no explicit port. -/
structure Conn where
  port : Option Nat
  hostname : JStr
  authorization : JStr
  path : JStr
  protocol : JStr
deriving DecidableEq

/-- The case-insensitive regular expression test `^http(s)?:\/\/` of
monitor.js line 642. -/
def httpAtStart (s : JStr) : Bool :=
  lstarts "http://".toList (s.map lcChar) || lstarts "https://".toList (s.map lcChar)

/-- lodash `_.trimLeft(s, '/')`: drops every leading slash (and maps a
`null` path, modelled as the empty string, to the empty string). -/
def trimSlashes (s : JStr) : JStr := s.dropWhile (· == '/')

/-- `Monitor.parseConnectionString` (monitor.js 631-654): split the
authorization off at the last `@`, prepend `http://` when no `http(s)://`
scheme is present, then read hostname, port, path and protocol out of
`url.parse`'s result, unconditionally overwriting the `8088` / loopback
defaults of the initial object whenever the (always non-empty) remaining
string is parsed. -/
def parseConnectionString (s : JStr) : Conn :=
  let ap :=
    match lastSplitAt '@' s with
    | some (pre, post) => (pre, post)
    | none => (([] : JStr), s)
  let s2 := if httpAtStart ap.2 then ap.2 else "http://".toList ++ ap.2
  if s2.isEmpty then
    { port := some 8088, hostname := "127.0.0.1".toList, authorization := ap.1
      path := [], protocol := [] }
  else
    let u := urlParse s2
    { port := u.port, hostname := u.hostname, authorization := ap.1
      path := trimSlashes u.path, protocol := u.protocol }

/-- A JS value held in a filtered environment object; `none` models
`undefined` (the synthesized `user` field is `undefined` when the raw
environment has no `USER` key). -/
abbrev JVal := Option String

/-- First-match lookup in a raw environment association list. -/
def lookupE : List (String × String) → String → Option String
  | [], _ => none
  | (k, v) :: t, q => if k = q then some v else lookupE t q

/-- First-match lookup in a filtered environment object. -/
def lookupA : List (String × JVal) → String → Option JVal
  | [], _ => none
  | (k, v) :: t, q => if k = q then some v else lookupA t q

/-- JS property assignment `obj[k] = v` on an object with distinct keys:
an existing key is updated in place, a new key is appended. -/
def jsAssign : List (String × JVal) → String → JVal → List (String × JVal)
  | [], k, v => [(k, v)]
  | (k0, v0) :: t, k, v =>
    if k0 = k then (k0, v) :: t else (k0, v0) :: jsAssign t k v

/-- The test `key.charCodeAt(0) <= 90` of monitor.js line 448; on the empty
string `charCodeAt` yields `NaN` and the comparison is false. -/
def firstCodeLE90 (k : String) : Bool :=
  match k.data with
  | [] => false
  | c :: _ => decide (c.toNat ≤ 90)

/-- The test `key.slice(0, 1) == '_'` of monitor.js line 446: the
one-character head slice equals the underscore (false on the empty key). -/
def firstCharUnderscore (k : String) : Bool :=
  match k.data with
  | [] => false
  | c :: _ => c == '_'

/-- The key filter of `Monitor.prototype._refreshProcs` (monitor.js
444-450): a key is dropped when it starts with an underscore, starts with
`axm_` (`key.indexOf('axm_') == 0`), equals `versioning` or `command`, or
its first character's code point is at most 90. -/
def keepKey (k : String) : Bool :=
  !(firstCharUnderscore k || lstarts "axm_".toList k.data || k == "versioning" ||
    k == "command" || firstCodeLE90 k)

/-- The per-process environment filtering of `_refreshProcs` (monitor.js
436-453): start from an object holding only `user`, copied from the raw
`USER` field, then copy every key that passes `keepKey` in iteration
order. -/
def filterEnv (env : List (String × String)) : List (String × JVal) :=
  env.foldl
    (fun acc kv => if keepKey kv.1 then jsAssign acc kv.1 (some kv.2) else acc)
    [("user", lookupE env "USER")]

/-- The environment map asserted by the amended claim C3: every original
key that passes the filter keeps its original value, `user` falls back to
the raw `USER` field when the original map has no (passing) `user` entry,
and no other key is present. -/
def amendedEnvLookup (env : List (String × String)) (k : String) : Option JVal :=
  if keepKey k = true ∧ (lookupE env k).isSome = true then (lookupE env k).map some
  else if k = "user" then some (lookupE env "USER") else none

/-- Last element of a burst of trigger times (the time of the last call). -/
def lastOf (t : Nat) : List Nat → Nat
  | [] => t
  | t1 :: rest => lastOf t1 rest

/-- Timed semantics of `Monitor.prototype._throttleRefresh` (monitor.js
416-424) on a weakly sorted list of trigger times: each call clears any
pending timeout and schedules `_refreshProcs` 500 ms later, so a pending
action fires (at trigger time + 500) exactly when the next trigger comes
no earlier than that; the list returned is the list of times at which
`_refreshProcs` actually runs. -/
def throttleFires : List Nat → List Nat
  | [] => []
  | [t] => [t + 500]
  | t :: t1 :: rest =>
    (if t + 500 ≤ t1 then [t + 500] else []) ++ throttleFires (t1 :: rest)

/-- The three socket.io namespaces served by the monitor. -/
inductive Nsp where
  | sys
  | log
  | proc
deriving DecidableEq

/-- State of the broadcast gate: live socket counts per namespace, the
`_noClient` flag, and the events delivered to each namespace so far. -/
structure BrState where
  sysCount : Nat
  logCount : Nat
  procCount : Nat
  noClient : Bool
  sysMsgs : List String
  logMsgs : List String
  procMsgs : List String
deriving DecidableEq

/-- Events driving the broadcast gate: connections and disconnections on
each namespace, and `_broadcast` calls. -/
inductive BrEv where
  | connectSys
  | disconnectSys
  | connectLog
  | disconnectLog
  | connectProc
  | disconnectProc
  | bcast (event : String) (target : Nsp)
deriving DecidableEq

/-- Delivery of one event to every subscriber of one namespace
(`this._sockio.of(nsp).emit(event, data)`, monitor.js 487). -/
def deliver (s : BrState) (event : String) : Nsp → BrState
  | .sys => { s with sysMsgs := s.sysMsgs ++ [event] }
  | .log => { s with logMsgs := s.logMsgs ++ [event] }
  | .proc => { s with procMsgs := s.procMsgs ++ [event] }

/-- One step of the connection / broadcast dynamics: `_connectSysSock`
clears `_noClient` (monitor.js 180), the per-socket disconnect handler
recomputes it from the remaining system-namespace socket count (monitor.js
182-185), log / process connections never touch it, and `_broadcast`
(monitor.js 480-488) silently drops the event when `_noClient` is set,
whatever the target namespace. -/
def brStep (s : BrState) : BrEv → BrState
  | .connectSys => { s with sysCount := s.sysCount + 1, noClient := false }
  | .disconnectSys =>
    { s with sysCount := s.sysCount - 1, noClient := decide (s.sysCount - 1 = 0) }
  | .connectLog => { s with logCount := s.logCount + 1 }
  | .disconnectLog => { s with logCount := s.logCount - 1 }
  | .connectProc => { s with procCount := s.procCount + 1 }
  | .disconnectProc => { s with procCount := s.procCount - 1 }
  | .bcast event target => if s.noClient then s else deliver s event target

/-- State right after `Monitor.prototype.run` (monitor.js 40-50):
`_noClient` is true and nothing is connected or delivered. -/
def brInit : BrState := ⟨0, 0, 0, true, [], [], []⟩

/-- The broadcast-gate state reached after a list of events. -/
def brRun (evs : List BrEv) : BrState := evs.foldl brStep brInit

/-- State of the heartbeat loop: the `_noClient` flag, whether `_status`
is `'R'`, whether a `_systemStat` callback is in flight, and the pending
`setTimeout` delay if one is scheduled. -/
structure HbState where
  noClient : Bool
  running : Bool
  statBusy : Bool
  timer : Option Nat
deriving DecidableEq

/-- Events driving the heartbeat loop: a system-namespace connection, a
disconnection leaving `remaining` sockets, completion of a `_systemStat`
refresh, and the firing of the scheduled timeout. -/
inductive HbEv where
  | connectSys
  | disconnectSys (remaining : Nat)
  | statDone
  | timerFire
deriving DecidableEq

/-- One step of the heartbeat dynamics (`Monitor.prototype._nextTick`,
monitor.js 355-373, driven from `_connectSysSock`, monitor.js 177-205):
a connection clears `_noClient` and, when the loop is not running, starts
a tick (sets `_status = 'R'` and launches `_systemStat`); when the stat
callback returns it schedules the next tick `interval` ms later if a
client remains, else deletes `_status`; the timeout fire re-enters
`_nextTick(tick, true)`. -/
def hbStep (interval : Nat) (s : HbState) : HbEv → HbState
  | .connectSys =>
    if s.running then { s with noClient := false }
    else { s with noClient := false, running := true, statBusy := true }
  | .disconnectSys n => { s with noClient := decide (n = 0) }
  | .statDone =>
    if s.statBusy then
      if s.noClient then { s with statBusy := false, running := false }
      else { s with statBusy := false, timer := some interval }
    else s
  | .timerFire =>
    match s.timer with
    | none => s
    | some _ => { s with timer := none, running := true, statBusy := true }

/-- Heartbeat state right after `run`: no client, not running, nothing
scheduled. -/
def hbInit : HbState := ⟨true, false, false, none⟩

/-- The heartbeat state reached after a list of events. -/
def hbRun (interval : Nat) (evs : List HbEv) : HbState :=
  evs.foldl (hbStep interval) hbInit

/-- First-match lookup in a numeric-keyed registry (JS object keys are the
decimal strings of the ids; decimal printing is injective, so natural
numbers model them faithfully). -/
def lookupT : List (Nat × Nat) → Nat → Option Nat
  | [], _ => none
  | (k, v) :: t, q => if k = q then some v else lookupT t q

/-- The `_tails` registry (pm_id to tail handle). -/
structure TailReg where
  tails : List (Nat × Nat)
deriving DecidableEq

/-- `startTailProcess` (monitor.js 229-269): record the requested pm_id on
the socket, return at once when a handle is already registered for it,
otherwise open a tail; `openOk` is the outcome of the asynchronous open
callback, which registers the handle on success and only emits an error
payload on failure. -/
def startTailProcess (st : TailReg) (pmId : Nat) (handle : Nat) (openOk : Bool) : TailReg :=
  if (lookupT st.tails pmId).isSome then st
  else if openOk then { tails := st.tails ++ [(pmId, handle)] } else st

/-- A connected log-namespace socket: `pmId` models its `_pm_id` property,
set by `startTailProcess` when the client requests a tail and absent
(`none`, JS `undefined`) before any request. -/
structure LogSock where
  pmId : Option Nat
deriving DecidableEq

/-- `Monitor.prototype._killTailProcess` (monitor.js 495-527): with a
numeric argument, kill and drop that single handle; otherwise sweep,
keeping exactly the handles whose pm_id is the `_pm_id` of some connected
log-namespace socket (a socket without `_pm_id` contributes the key
`undefined`, which matches no numeric key). -/
def killTailProcess (arg : Option Nat) (socks : List LogSock) (tails : List (Nat × Nat)) :
    List (Nat × Nat) :=
  match arg with
  | some pmId => tails.filter (fun kv => kv.1 != pmId)
  | none => tails.filter (fun kv => (socks.filterMap LogSock.pmId).contains kv.1)

/-- A connected process-namespace socket.  `runObserver` (monitor.js 314)
records the requested pid on the property `_pid` (`underPid` here); no
statement in the source ever assigns the property `pid` (`pidProp` here),
so in every reachable state `pidProp` is `undefined`. -/
structure ProcSock where
  pidProp : Option Nat
  underPid : Option Nat
deriving DecidableEq

/-- The usage-timer sweep body (monitor.js 303-310): keep exactly the
timers whose pid is in the claimed set. -/
def sweepUsages (claimed : List Nat) (usages : List (Nat × Nat)) : List (Nat × Nat) :=
  usages.filter (fun kv => claimed.contains kv.1)

/-- `killObserver` (monitor.js 293-311): with no connected socket the
claimed set is empty and every timer is cleared; with connected sockets it
evaluates `sock.pid.toString()` for each of them, which throws a
`TypeError` (modelled as `none`) as soon as `pid` is `undefined` - and it
always is, since the source only ever assigns `_pid`. -/
def killObserver (socks : List ProcSock) (usages : List (Nat × Nat)) :
    Option (List (Nat × Nat)) :=
  if socks.isEmpty then some (sweepUsages [] usages)
  else
    match socks.mapM ProcSock.pidProp with
    | none => none
    | some pids => some (sweepUsages pids usages)

/-- Outcome of running a JS callback: a value, or an uncaught exception. -/
inductive JsResult (α : Type) where
  | ok (value : α)
  | thrown (err : String)
deriving DecidableEq

/-- The `_usages` registry (pid to repeating-timer handle). -/
structure UsageReg where
  usages : List (Nat × Nat)
deriving DecidableEq

/-- A payload broadcast on the `proc` event: an error payload `{pid, msg}`
or a sample `{pid, time, usage}` whose memory is scaled to a percentage of
total system memory (exact rational arithmetic stands in for JS floats). -/
structure ProcBroadcast where
  pid : Nat
  isError : Bool
  memory : Option ℚ
deriving DecidableEq

/-- The `pidusage.stat` callback inside `runObserver` (monitor.js 324-338).
`ctxBinding` is the binding of the identifier `ctx` read on lines 326-327:
no enclosing scope of `runTimer` declares any `ctx` (the only `ctx` in the
file is a parameter local to the `_throttleRefresh` callback), so the only
faithful instantiation is `none`, and reading `ctx._usages` throws a
`ReferenceError` before the timer is cleared or anything is broadcast.  On
a successful sample the state is untouched and a scaled sample is
broadcast to the process namespace. -/
def runTimerOnStat (ctxBinding : Option UsageReg) (self : UsageReg) (pid : Nat)
    (totalmem : Nat) (res : Except String ℚ) :
    JsResult (UsageReg × List ProcBroadcast) :=
  match res with
  | .error _ =>
    match ctxBinding with
    | none => .thrown "ReferenceError: ctx is not defined"
    | some c =>
      .ok ({ usages := c.usages.filter (fun kv => kv.1 != pid) },
        [⟨pid, true, none⟩])
  | .ok mem => .ok (self, [⟨pid, false, some (mem * 100 / (totalmem : ℚ))⟩])

/-- State of the two callbacks handed to `Monitor.prototype.connect`: the
`_called` flags stored on the callback objects and how many times each
callback has actually run. -/
structure CbState where
  sCalled : Bool
  fCalled : Bool
  sCount : Nat
  fCount : Nat
deriving DecidableEq

/-- Socket events observed by `connect`'s handlers. -/
inductive SockEv where
  | connected
  | errored
  | connectErrored
deriving DecidableEq

/-- The socket event handlers registered by `Monitor.prototype.connect`
(monitor.js 85-98): each handler runs its callback only when the
callback's `_called` flag is unset, then sets the flag; `error` and
`connect_error` share the failure callback and its flag. -/
def cbStep (st : CbState) : SockEv → CbState
  | .connected =>
    if st.sCalled then st else { st with sCount := st.sCount + 1, sCalled := true }
  | .errored =>
    if st.fCalled then st else { st with fCount := st.fCount + 1, fCalled := true }
  | .connectErrored =>
    if st.fCalled then st else { st with fCount := st.fCount + 1, fCalled := true }

/-- Callback state before any socket event. -/
def cbInit : CbState := ⟨false, false, 0, 0⟩

/-- Callback state after a list of socket events. -/
def cbRun (evs : List SockEv) : CbState := evs.foldl cbStep cbInit

/-- JS falsiness of the `port` option (`!options.port`): `undefined` and
`0` are falsy. -/
def jsFalsyPort : Option Nat → Bool
  | none => true
  | some p => p == 0

/-- The entry of `Monitor.prototype.connect` (monitor.js 76-84): a falsy
port throws `Port is required!` before any connection attempt; otherwise
the server URI is built by `toConnectionString` and a socket is opened on
it. -/
def connectStart (e : Endpoint) : Except String JStr :=
  if jsFalsyPort e.port then Except.error "Port is required!"
  else Except.ok (toConnectionString e)

/-! ## General helper lemmas -/

theorem foldlPres {σ ε : Type} (f : σ → ε → σ) (P : σ → Prop)
    (hf : ∀ s e, P s → P (f s e)) :
    ∀ (l : List ε) (s : σ), P s → P (l.foldl f s) := by
  intro l
  induction l with
  | nil => intro s hs; simpa using hs
  | cons e t ih => intro s hs; simpa using ih (f s e) (hf s e hs)

/-! ## Decimal printing and parsing (for C1) -/

theorem digitChar_toNat (d : Nat) (hd : d < 10) : (digitChar d).toNat = 48 + d := by
  interval_cases d <;> decide

theorem isDigitC_digitChar (d : Nat) (hd : d < 10) : isDigitC (digitChar d) = true := by
  interval_cases d <;> decide

theorem digitsGo_digits :
    ∀ (fuel n : Nat) (acc : JStr), (∀ c ∈ acc, isDigitC c = true) →
      ∀ c ∈ digitsGo fuel n acc, isDigitC c = true := by
  intro fuel
  induction fuel with
  | zero => intro n acc hacc c hc; exact hacc c hc
  | succ f ih =>
    intro n acc hacc c hc
    by_cases hn : n < 10
    · simp only [digitsGo, if_pos hn] at hc
      rcases List.mem_cons.1 hc with h | h
      · exact h ▸ isDigitC_digitChar n hn
      · exact hacc c h
    · simp only [digitsGo, if_neg hn] at hc
      refine ih (n / 10) _ ?_ c hc
      intro x hx
      rcases List.mem_cons.1 hx with h | h
      · exact h ▸ isDigitC_digitChar (n % 10) (Nat.mod_lt n (by omega))
      · exact hacc x h

theorem digitsOf_digits (n : Nat) : ∀ c ∈ digitsOf n, isDigitC c = true :=
  digitsGo_digits (n + 1) n [] (by simp)

theorem digitsGo_fuel :
    ∀ (f1 f2 n : Nat) (acc : JStr), n < f1 → n < f2 →
      digitsGo f1 n acc = digitsGo f2 n acc := by
  intro f1
  induction f1 with
  | zero => intro f2 n acc h1 _; omega
  | succ f ih =>
    intro f2 n acc h1 h2
    cases f2 with
    | zero => omega
    | succ g =>
      by_cases hn : n < 10
      · simp [digitsGo, hn]
      · have hdiv : n / 10 < n := Nat.div_lt_self (by omega) (by omega)
        simp only [digitsGo, if_neg hn]
        exact ih g (n / 10) _ (by omega) (by omega)

theorem digitsGo_append :
    ∀ (fuel n : Nat) (acc : JStr), n < fuel →
      digitsGo fuel n acc = digitsGo fuel n [] ++ acc := by
  intro fuel
  induction fuel with
  | zero => intro n acc h; omega
  | succ f ih =>
    intro n acc h
    by_cases hn : n < 10
    · simp [digitsGo, hn]
    · have hdiv : n / 10 < n := Nat.div_lt_self (by omega) (by omega)
      have h1 : n / 10 < f := by omega
      simp only [digitsGo, if_neg hn]
      rw [ih (n / 10) _ h1, ih (n / 10) [digitChar (n % 10)] h1]
      simp [List.append_assoc]

theorem digitsOf_small (n : Nat) (hn : n < 10) : digitsOf n = [digitChar n] := by
  simp [digitsOf, digitsGo, hn]

theorem digitsOf_split (n : Nat) (hn : 10 ≤ n) :
    digitsOf n = digitsOf (n / 10) ++ [digitChar (n % 10)] := by
  have hdiv : n / 10 < n := Nat.div_lt_self (by omega) (by omega)
  have h1 : digitsOf n = digitsGo n (n / 10) [digitChar (n % 10)] := by
    simp [digitsOf, digitsGo, Nat.not_lt.2 hn]
  rw [h1, digitsGo_append n (n / 10) _ (by omega),
    digitsGo_fuel n (n / 10 + 1) (n / 10) [] (by omega) (by omega)]
  rfl

theorem digitsOf_ne_nil (n : Nat) : digitsOf n ≠ [] := by
  by_cases hn : n < 10
  · simp [digitsOf_small n hn]
  · rw [digitsOf_split n (by omega)]
    simp

theorem parseFold_digitsOf :
    ∀ (n : Nat), ∀ a : Nat,
      (digitsOf n).foldl (fun a c => 10 * a + (c.toNat - 48)) a =
        a * 10 ^ (digitsOf n).length + n := by
  intro n
  induction n using Nat.strong_induction_on with
  | _ n ih =>
    intro a
    by_cases hn : n < 10
    · rw [digitsOf_small n hn]
      simp only [List.foldl_cons, List.foldl_nil, List.length_cons, List.length_nil,
        digitChar_toNat n hn]
      have h1 : 48 + n - 48 = n := by omega
      rw [h1, pow_one]
      omega
    · have h10 : 10 ≤ n := by omega
      have hdiv : n / 10 < n := Nat.div_lt_self (by omega) (by omega)
      rw [digitsOf_split n h10, List.foldl_append, ih (n / 10) hdiv a]
      simp only [List.foldl_cons, List.foldl_nil,
        digitChar_toNat (n % 10) (Nat.mod_lt n (by omega)), List.length_append,
        List.length_cons, List.length_nil]
      have h1 : 48 + n % 10 - 48 = n % 10 := by omega
      have hmod : 10 * (n / 10) + n % 10 = n := by omega
      rw [h1]
      calc 10 * (a * 10 ^ (digitsOf (n / 10)).length + n / 10) + n % 10
          = a * (10 ^ (digitsOf (n / 10)).length * 10) + (10 * (n / 10) + n % 10) := by
            ring
        _ = a * 10 ^ ((digitsOf (n / 10)).length + (0 + 1)) + n := by
            rw [hmod, Nat.zero_add, pow_succ]

theorem parseNat_digitsOf (n : Nat) : parseNat (digitsOf n) = n := by
  have h := parseFold_digitsOf n 0
  simpa [parseNat] using h

/-! ## Character-class lemmas (for C1) -/

theorem hostChar_range (c : Char) (h : hostCharB c = true) :
    (97 ≤ c.toNat ∧ c.toNat ≤ 122) ∨ (48 ≤ c.toNat ∧ c.toNat ≤ 57) ∨
      c.toNat = 46 ∨ c.toNat = 45 := by
  simpa [hostCharB] using h

theorem hostChar_ne_of (c x : Char) (h : hostCharB c = true)
    (hx : hostCharB x = false) : c ≠ x := by
  intro he
  rw [he, hx] at h
  cases h

theorem isDigit_ne_of (c x : Char) (h : isDigitC c = true)
    (hx : isDigitC x = false) : c ≠ x := by
  intro he
  rw [he, hx] at h
  cases h

theorem lcChar_host (c : Char) (h : hostCharB c = true) : lcChar c = c := by
  have hr := hostChar_range c h
  unfold lcChar
  rw [if_neg]
  rcases hr with h1 | h1 | h1 | h1 <;> omega

theorem hostChar_authority (c : Char) (h : hostCharB c = true) :
    authorityChar c = true := by
  simp only [authorityChar, Bool.and_eq_true, bne_iff_ne, ne_eq]
  refine ⟨⟨?_, ?_⟩, ?_⟩ <;> exact fun he => by cases hostChar_ne_of c _ h (by decide) he

theorem isDigit_authority (c : Char) (h : isDigitC c = true) :
    authorityChar c = true := by
  simp only [authorityChar, Bool.and_eq_true, bne_iff_ne, ne_eq]
  refine ⟨⟨?_, ?_⟩, ?_⟩ <;> exact fun he => by cases isDigit_ne_of c _ h (by decide) he

/-! ## List-scanning lemmas (for C1) -/

theorem twCons (p : Char → Bool) (c : Char) (l : JStr) :
    (c :: l).takeWhile p = if p c then c :: l.takeWhile p else [] := by
  cases h : p c <;> simp [List.takeWhile_cons, h]

theorem twAll (p : Char → Bool) :
    ∀ (l : JStr), (∀ c ∈ l, p c = true) → l.takeWhile p = l := by
  intro l
  induction l with
  | nil => intro _; rfl
  | cons c t ih =>
    intro hl
    rw [twCons, if_pos (hl c (List.mem_cons_self c t)),
      ih (fun x hx => hl x (List.mem_cons_of_mem c hx))]

theorem twAppend (p : Char → Bool) (a b : JStr) (ha : ∀ c ∈ a, p c = true) :
    (a ++ b).takeWhile p = a ++ b.takeWhile p := by
  induction a with
  | nil => simp
  | cons c t ih =>
    rw [List.cons_append, twCons, if_pos (ha c (List.mem_cons_self c t)),
      ih (fun x hx => ha x (List.mem_cons_of_mem c hx)), List.cons_append]

theorem twStop (p : Char → Bool) (a : JStr) (b : Char) (rest : JStr)
    (ha : ∀ c ∈ a, p c = true) (hb : p b = false) :
    (a ++ b :: rest).takeWhile p = a := by
  rw [twAppend p a _ ha, twCons, if_neg (by simp [hb]), List.append_nil]

theorem lastSplit_none (ch : Char) :
    ∀ (l : JStr), (∀ c ∈ l, c ≠ ch) → lastSplitAt ch l = none := by
  intro l
  induction l with
  | nil => intro _; rfl
  | cons c rest ih =>
    intro hl
    have hr := ih (fun x hx => hl x (List.mem_cons_of_mem c hx))
    have hc : (c == ch) = false :=
      beq_eq_false_iff_ne.2 (hl c (List.mem_cons_self c rest))
    simp [lastSplitAt, hr, hc]

theorem lstarts_append_self (a b : JStr) : lstarts a (a ++ b) = true := by
  induction a with
  | nil => rfl
  | cons c t ih => simp [lstarts, ih]

theorem map_lc_host (h : JStr) (hh : ∀ c ∈ h, hostCharB c = true) :
    h.map lcChar = h := by
  induction h with
  | nil => rfl
  | cons c t ih =>
    rw [List.map_cons, lcChar_host c (hh c (List.mem_cons_self c t)),
      ih (fun x hx => hh x (List.mem_cons_of_mem c hx))]

/-! ## Connection-string codec (C1) -/

theorem dropLeft : ∀ (a b : JStr), (a ++ b).drop a.length = b := by
  intro a b
  induction a with
  | nil => rfl
  | cons c t ih => simp [ih]

theorem splitHostPort_eq (h ds : JStr)
    (hds : ∀ c ∈ ds, isDigitC c = true) (hds1 : ds ≠ []) :
    splitHostPort (h ++ ':' :: ds) = (h, some (parseNat ds)) := by
  obtain ⟨d0, ds0, hrev⟩ : ∃ d0 ds0, ds.reverse = d0 :: ds0 := by
    cases hr : ds.reverse with
    | nil => exact absurd (List.reverse_eq_nil_iff.1 hr) hds1
    | cons x xs => exact ⟨x, xs, rfl⟩
  have hrev2 : (h ++ ':' :: ds).reverse = ds.reverse ++ ':' :: h.reverse := by
    simp
  have htw : (ds.reverse ++ ':' :: h.reverse).takeWhile isDigitC = ds.reverse :=
    twStop _ _ _ _ (fun c hc => hds c (List.mem_reverse.1 hc)) (by decide)
  have hne : (ds.reverse).isEmpty = false := by rw [hrev]; rfl
  have hdrop1 : (ds.reverse ++ ':' :: h.reverse).drop (ds.reverse).length =
      ':' :: h.reverse := dropLeft _ _
  have hdrop2 : (ds.reverse ++ ':' :: h.reverse).drop ((ds.reverse).length + 1) =
      h.reverse := by
    have hsplit : ds.reverse ++ ':' :: h.reverse = (ds.reverse ++ [':']) ++ h.reverse := by
      simp
    have hlen : (ds.reverse ++ [':']).length = (ds.reverse).length + 1 := by simp
    rw [hsplit, ← hlen, dropLeft]
  simp only [splitHostPort, hrev2, htw, hne, Bool.false_eq_true, if_false,
    hdrop1, hdrop2, List.head?_cons, List.reverse_reverse]
  rfl

theorem urlParse_eq_of (s scheme rest authority tail0 host : JStr) (port : Option Nat)
    (h1 : s.takeWhile notColon = scheme)
    (h2 : (if lstarts "//".toList (s.drop (scheme.length + 1)) then
        (s.drop (scheme.length + 1)).drop 2
      else s.drop (scheme.length + 1)) = rest)
    (h3 : rest.takeWhile authorityChar = authority)
    (h4 : rest.drop authority.length = tail0)
    (h5 : splitHostPort authority = (host, port)) :
    urlParse s =
      { protocol := scheme.map lcChar ++ ":".toList, hostname := host.map lcChar
        port := port, path := tail0.takeWhile notHash } := by
  simp only [urlParse]
  rw [h1, h2, h3, h4, h5]

theorem authority_all (h ds : JStr) (hh : ∀ c ∈ h, hostCharB c = true)
    (hds : ∀ c ∈ ds, isDigitC c = true) :
    ∀ c ∈ h ++ ':' :: ds, authorityChar c = true := by
  intro c hc
  rcases List.mem_append.1 hc with h1 | h2
  · exact hostChar_authority c (hh c h1)
  · rcases List.mem_cons.1 h2 with h3 | h3
    · rw [h3]; decide
    · exact isDigit_authority c (hds c h3)

theorem urlParse_http (h ds : JStr)
    (hh : ∀ c ∈ h, hostCharB c = true)
    (hds : ∀ c ∈ ds, isDigitC c = true) (hds1 : ds ≠ []) :
    urlParse ("http://".toList ++ (h ++ ':' :: ds)) =
      { protocol := "http:".toList, hostname := h, port := some (parseNat ds)
        path := [] } := by
  have h3 : (h ++ ':' :: ds).takeWhile authorityChar = h ++ ':' :: ds :=
    twAll _ _ (authority_all h ds hh hds)
  rw [urlParse_eq_of ("http://".toList ++ (h ++ ':' :: ds)) ['h', 't', 't', 'p']
    (h ++ ':' :: ds) (h ++ ':' :: ds) [] h (some (parseNat ds)) rfl rfl h3
    (List.drop_length _) (splitHostPort_eq h ds hds hds1)]
  rw [map_lc_host h hh]
  rfl

theorem urlParse_https (h ds : JStr)
    (hh : ∀ c ∈ h, hostCharB c = true)
    (hds : ∀ c ∈ ds, isDigitC c = true) (hds1 : ds ≠ []) :
    urlParse ("https://".toList ++ (h ++ ':' :: ds)) =
      { protocol := "https:".toList, hostname := h, port := some (parseNat ds)
        path := [] } := by
  have h3 : (h ++ ':' :: ds).takeWhile authorityChar = h ++ ':' :: ds :=
    twAll _ _ (authority_all h ds hh hds)
  rw [urlParse_eq_of ("https://".toList ++ (h ++ ':' :: ds)) ['h', 't', 't', 'p', 's']
    (h ++ ':' :: ds) (h ++ ':' :: ds) [] h (some (parseNat ds)) rfl rfl h3
    (List.drop_length _) (splitHostPort_eq h ds hds hds1)]
  rw [map_lc_host h hh]
  rfl

theorem no_at_http (h ds : JStr) (hh : ∀ c ∈ h, hostCharB c = true)
    (hds : ∀ c ∈ ds, isDigitC c = true) :
    ∀ c ∈ "http://".toList ++ (h ++ ':' :: ds), c ≠ '@' := by
  intro c hc
  rcases List.mem_append.1 hc with h1 | h2
  · exact (by decide : ∀ c ∈ ("http://".toList : JStr), c ≠ '@') c h1
  · rcases List.mem_append.1 h2 with h3 | h3
    · exact hostChar_ne_of c '@' (hh c h3) (by decide)
    · rcases List.mem_cons.1 h3 with h4 | h4
      · rw [h4]; decide
      · exact isDigit_ne_of c '@' (hds c h4) (by decide)

theorem no_at_https (h ds : JStr) (hh : ∀ c ∈ h, hostCharB c = true)
    (hds : ∀ c ∈ ds, isDigitC c = true) :
    ∀ c ∈ "https://".toList ++ (h ++ ':' :: ds), c ≠ '@' := by
  intro c hc
  rcases List.mem_append.1 hc with h1 | h2
  · exact (by decide : ∀ c ∈ ("https://".toList : JStr), c ≠ '@') c h1
  · rcases List.mem_append.1 h2 with h3 | h3
    · exact hostChar_ne_of c '@' (hh c h3) (by decide)
    · rcases List.mem_cons.1 h3 with h4 | h4
      · rw [h4]; decide
      · exact isDigit_ne_of c '@' (hds c h4) (by decide)

theorem httpAtStart_http (rest : JStr) :
    httpAtStart ("http://".toList ++ rest) = true := by
  unfold httpAtStart
  have hmap : ("http://".toList ++ rest).map lcChar =
      "http://".toList ++ rest.map lcChar := by
    rw [List.map_append]
    congr 1
  rw [hmap, lstarts_append_self]
  rfl

theorem httpAtStart_https (rest : JStr) :
    httpAtStart ("https://".toList ++ rest) = true := by
  unfold httpAtStart
  have hmap : ("https://".toList ++ rest).map lcChar =
      "https://".toList ++ rest.map lcChar := by
    rw [List.map_append]
    congr 1
  rw [hmap, lstarts_append_self, Bool.or_true]

theorem parseConn_http (h ds : JStr)
    (hh : ∀ c ∈ h, hostCharB c = true)
    (hds : ∀ c ∈ ds, isDigitC c = true) (hds1 : ds ≠ []) :
    parseConnectionString ("http://".toList ++ (h ++ ':' :: ds)) =
      { port := some (parseNat ds), hostname := h, authorization := []
        path := [], protocol := "http:".toList } := by
  have hnoat : lastSplitAt '@' ("http://".toList ++ (h ++ ':' :: ds)) = none :=
    lastSplit_none '@' _ (no_at_http h ds hh hds)
  have hempty : ("http://".toList ++ (h ++ ':' :: ds)).isEmpty = false := rfl
  simp only [parseConnectionString, hnoat, httpAtStart_http, if_true, hempty,
    Bool.false_eq_true, if_false, urlParse_http h ds hh hds hds1]
  rfl

theorem parseConn_https (h ds : JStr)
    (hh : ∀ c ∈ h, hostCharB c = true)
    (hds : ∀ c ∈ ds, isDigitC c = true) (hds1 : ds ≠ []) :
    parseConnectionString ("https://".toList ++ (h ++ ':' :: ds)) =
      { port := some (parseNat ds), hostname := h, authorization := []
        path := [], protocol := "https:".toList } := by
  have hnoat : lastSplitAt '@' ("https://".toList ++ (h ++ ':' :: ds)) = none :=
    lastSplit_none '@' _ (no_at_https h ds hh hds)
  have hempty : ("https://".toList ++ (h ++ ':' :: ds)).isEmpty = false := rfl
  simp only [parseConnectionString, hnoat, httpAtStart_https, if_true, hempty,
    Bool.false_eq_true, if_false, urlParse_https h ds hh hds hds1]
  rfl

/-- Counterexample for C1: on the endpoint with authorization `secret` and
default protocol, hostname, port 88 and empty path and namespace, the
encoder emits the authorization as a `?auth=secret` query suffix while the
decoder only recovers an authorization from an `@`-prefix, so the decoded
authorization is empty, not `secret` (and the query suffix leaks into the
decoded path). -/
theorem conn_roundtrip_counterexample :
    (parseConnectionString
        (toConnectionString ⟨[], [], some 88, [], [], "secret".toList⟩)).authorization ≠
      ("secret".toList : JStr) ∧
    (parseConnectionString
        (toConnectionString ⟨[], [], some 88, [], [], "secret".toList⟩)).authorization =
      [] := by
  refine ⟨by decide, by decide⟩

/-- Claim C1 (corrected): the round-trip holds for the semantic fields the
decoder can actually recover: for every endpoint with empty authorization,
path and namespace, a protocol that is absent, `http:` or `https:`, a
present port, and a non-empty hostname made of lower-case letters, digits,
dots or hyphens, decoding the encoded string restores the hostname and
port exactly and yields empty authorization and path.  (The encoder writes
the authorization as a `?auth=` query suffix, which the decoder does not
read back, and the decoder folds path and namespace into a single slash-
trimmed path, so those fields do not round-trip in general.) -/
theorem conn_roundtrip_amended (e : Endpoint) (p : Nat)
    (hport : e.port = some p) (hauth : e.authorization = [])
    (hpath : e.path = []) (hnsp : e.nsp = [])
    (hproto : e.protocol = [] ∨ e.protocol = "http:".toList ∨
      e.protocol = "https:".toList)
    (hh1 : e.hostname ≠ []) (hh : ∀ c ∈ e.hostname, hostCharB c = true) :
    (parseConnectionString (toConnectionString e)).hostname = e.hostname ∧
      (parseConnectionString (toConnectionString e)).port = some p ∧
      (parseConnectionString (toConnectionString e)).authorization = [] ∧
      (parseConnectionString (toConnectionString e)).path = [] := by
  have hde : ∀ c ∈ digitsOf p, isDigitC c = true := digitsOf_digits p
  have hdn : digitsOf p ≠ [] := digitsOf_ne_nil p
  have hhe : e.hostname.isEmpty = false := by
    cases he2 : e.hostname with
    | nil => exact absurd he2 hh1
    | cons a t => rfl
  have concl_http :
      toConnectionString e = "http://".toList ++ (e.hostname ++ ':' :: digitsOf p) →
        (parseConnectionString (toConnectionString e)).hostname = e.hostname ∧
          (parseConnectionString (toConnectionString e)).port = some p ∧
          (parseConnectionString (toConnectionString e)).authorization = [] ∧
          (parseConnectionString (toConnectionString e)).path = [] := by
    intro hcs
    rw [hcs, parseConn_http e.hostname (digitsOf p) hh hde hdn]
    exact ⟨rfl, by simp [parseNat_digitsOf], rfl, rfl⟩
  have concl_https :
      toConnectionString e = "https://".toList ++ (e.hostname ++ ':' :: digitsOf p) →
        (parseConnectionString (toConnectionString e)).hostname = e.hostname ∧
          (parseConnectionString (toConnectionString e)).port = some p ∧
          (parseConnectionString (toConnectionString e)).authorization = [] ∧
          (parseConnectionString (toConnectionString e)).path = [] := by
    intro hcs
    rw [hcs, parseConn_https e.hostname (digitsOf p) hh hde hdn]
    exact ⟨rfl, by simp [parseNat_digitsOf], rfl, rfl⟩
  have l1 : ("http:".toList : JStr) = ['h', 't', 't', 'p', ':'] := rfl
  have l2 : ("//".toList : JStr) = ['/', '/'] := rfl
  have l3 : (":".toList : JStr) = [':'] := rfl
  have l4 : ("http://".toList : JStr) = ['h', 't', 't', 'p', ':', '/', '/'] := rfl
  have l5 : ("https:".toList : JStr) = ['h', 't', 't', 'p', 's', ':'] := rfl
  have l6 : ("https://".toList : JStr) = ['h', 't', 't', 'p', 's', ':', '/', '/'] := rfl
  rcases hproto with h0 | h0 | h0
  · apply concl_http
    simp only [toConnectionString, h0, hauth, hpath, hnsp, hport, hhe,
      List.isEmpty_nil, if_true, Bool.false_eq_true, if_false, List.append_nil]
    rw [l1, l2, l3, l4]
    simp [portChunk]
  · apply concl_http
    have hpe : (("http:".toList : JStr)).isEmpty = false := rfl
    simp only [toConnectionString, h0, hauth, hpath, hnsp, hport, hhe, hpe,
      List.isEmpty_nil, if_true, Bool.false_eq_true, if_false, List.append_nil]
    rw [l1, l2, l3, l4]
    simp [portChunk]
  · apply concl_https
    have hpe : (("https:".toList : JStr)).isEmpty = false := rfl
    simp only [toConnectionString, h0, hauth, hpath, hnsp, hport, hhe, hpe,
      List.isEmpty_nil, if_true, Bool.false_eq_true, if_false, List.append_nil]
    rw [l5, l2, l3, l6]
    simp [portChunk]

/-- Witness for C1: the endpoint `http://node-1.example:80` round-trips on
hostname and port. -/
theorem conn_roundtrip_amended_witness :
    (∀ c ∈ ("node-1.example".toList : JStr), hostCharB c = true) ∧
      (parseConnectionString (toConnectionString
          ⟨"http:".toList, "node-1.example".toList, some 80, [], [], []⟩)).hostname =
        "node-1.example".toList ∧
      (parseConnectionString (toConnectionString
          ⟨"http:".toList, "node-1.example".toList, some 80, [], [], []⟩)).port =
        some 80 ∧
      (parseConnectionString (toConnectionString
          ⟨"http:".toList, "node-1.example".toList, some 80, [], [], []⟩)).authorization =
        [] ∧
      (parseConnectionString (toConnectionString
          ⟨"http:".toList, "node-1.example".toList, some 80, [], [], []⟩)).path = [] :=
  ⟨by decide,
    conn_roundtrip_amended ⟨"http:".toList, "node-1.example".toList, some 80, [], [], []⟩
      80 rfl rfl rfl rfl (Or.inr (Or.inl rfl)) (by decide) (by decide)⟩

/-! ## Throttle gate (C4) -/

theorem lastOf_cons (t t1 : Nat) (rest : List Nat) :
    lastOf t (t1 :: rest) = lastOf t1 rest := rfl

/-- Claim C4 (confirmed): in a burst of one or more trigger calls whose
consecutive times are separated by less than the 500 ms debounce window,
`_refreshProcs` runs exactly once, at 500 ms after the last trigger of the
burst (hence no earlier than that). -/
theorem throttle_burst_once (rest : List Nat) (t : Nat)
    (hburst : List.Chain (fun a b => a ≤ b ∧ b < a + 500) t rest) :
    throttleFires (t :: rest) = [lastOf t rest + 500] := by
  induction rest generalizing t with
  | nil => simp [throttleFires, lastOf]
  | cons t1 rs ih =>
    cases hburst with
    | cons hab hch =>
      have hlt : ¬ (t + 500 ≤ t1) := by omega
      simp only [throttleFires, if_neg hlt, List.nil_append, lastOf_cons]
      exact ih t1 hch

/-- Witness for C4: the burst 0, 100, 300 yields the single fire time
800 = 300 + 500. -/
theorem throttle_burst_once_witness :
    List.Chain (fun a b => a ≤ b ∧ b < a + 500) 0 [100, 300] ∧
      throttleFires [0, 100, 300] = [lastOf 0 [100, 300] + 500] := by
  have hch : List.Chain (fun a b => a ≤ b ∧ b < a + 500) 0 [100, 300] :=
    .cons (by omega) (.cons (by omega) .nil)
  exact ⟨hch, throttle_burst_once [100, 300] 0 hch⟩

/-! ## Broadcast gate (C2) -/

theorem brStep_presence (s : BrState) (e : BrEv)
    (h : s.noClient = decide (s.sysCount = 0)) :
    (brStep s e).noClient = decide ((brStep s e).sysCount = 0) := by
  cases e with
  | connectSys => simp [brStep]
  | disconnectSys => simp [brStep]
  | connectLog => simpa [brStep] using h
  | disconnectLog => simpa [brStep] using h
  | connectProc => simpa [brStep] using h
  | disconnectProc => simpa [brStep] using h
  | bcast ev tg =>
    simp only [brStep]
    split
    · exact h
    · cases tg <;> simpa [deliver] using h

theorem brRun_presence (evs : List BrEv) :
    (brRun evs).noClient = decide ((brRun evs).sysCount = 0) :=
  foldlPres brStep (fun s => s.noClient = decide (s.sysCount = 0))
    brStep_presence evs brInit (by decide)

/-- Claim C2 (confirmed): in any reachable state in which zero sockets are
connected to the system namespace, a `_broadcast` call - to any target
namespace, with any event - changes nothing: no namespace receives the
event, even when log or process namespaces have connected subscribers. -/
theorem broadcast_gated_by_sys_presence (evs : List BrEv) (event : String) (target : Nsp)
    (hsys : (brRun evs).sysCount = 0) :
    brStep (brRun evs) (BrEv.bcast event target) = brRun evs := by
  have hnc : (brRun evs).noClient = true := by
    have h := brRun_presence evs
    rw [hsys] at h
    simpa using h
  simp [brStep, hnc]

/-- Witness for C2: after one log-namespace connection (a live log
subscriber, zero system sockets), a broadcast to the log namespace
delivers nothing. -/
theorem broadcast_gated_by_sys_presence_witness :
    (brRun [BrEv.connectLog]).sysCount = 0 ∧
      0 < (brRun [BrEv.connectLog]).logCount ∧
      brStep (brRun [BrEv.connectLog]) (BrEv.bcast "log" Nsp.log) = brRun [BrEv.connectLog] :=
  ⟨by decide, by decide,
    broadcast_gated_by_sys_presence [BrEv.connectLog] "log" Nsp.log (by decide)⟩

/-! ## Heartbeat loop (C8) -/

theorem hb_quiet (interval : Nat) :
    ∀ (l : List HbEv) (s : HbState), (∀ e ∈ l, e ≠ HbEv.connectSys) →
      s.running = false → s.statBusy = false → s.timer = none →
      (l.foldl (hbStep interval) s).running = false ∧
        (l.foldl (hbStep interval) s).statBusy = false ∧
        (l.foldl (hbStep interval) s).timer = none := by
  intro l
  induction l with
  | nil => intro s _ h1 h2 h3; simp [h1, h2, h3]
  | cons e t ih =>
    intro s hl h1 h2 h3
    have he : e ≠ HbEv.connectSys := hl e (List.mem_cons_self e t)
    have ht : ∀ x ∈ t, x ≠ HbEv.connectSys := fun x hx => hl x (List.mem_cons_of_mem e hx)
    rw [List.foldl_cons]
    cases e with
    | connectSys => exact absurd rfl he
    | disconnectSys n => exact ih _ ht (by simp [hbStep, h1]) (by simp [hbStep, h2]) (by simp [hbStep, h3])
    | statDone => exact ih _ ht (by simp [hbStep, h2, h1]) (by simp [hbStep, h2]) (by simp [hbStep, h2, h3])
    | timerFire => exact ih _ ht (by simp [hbStep, h3, h1]) (by simp [hbStep, h3, h2]) (by simp [hbStep, h3])

/-- Claim C8 (confirmed): (a) starting from the post-`run` state, a trace
without any system-namespace connection never schedules a tick and never
runs; (b) when a tick's `_systemStat` refresh completes with no client
connected, the loop does not reschedule and `_status` is deleted
(stopped); (c) a connection arriving while the loop is stopped starts a
fresh tick whose completed refresh schedules the next one after the
configured interval. -/
theorem heartbeat_stops_without_clients (interval : Nat) :
    (∀ evs : List HbEv, (∀ e ∈ evs, e ≠ HbEv.connectSys) →
      (hbRun interval evs).timer = none ∧ (hbRun interval evs).running = false) ∧
    (∀ s : HbState, s.statBusy = true → s.noClient = true →
      (hbStep interval s HbEv.statDone).running = false ∧
        (hbStep interval s HbEv.statDone).timer = s.timer) ∧
    (∀ s : HbState, s.running = false →
      (hbStep interval s HbEv.connectSys).running = true ∧
        (hbStep interval s HbEv.connectSys).statBusy = true ∧
        (hbStep interval (hbStep interval s HbEv.connectSys) HbEv.statDone).timer =
          some interval) := by
  refine ⟨?_, ?_, ?_⟩
  · intro evs hevs
    have h := hb_quiet interval evs hbInit hevs rfl rfl rfl
    exact ⟨h.2.2, h.1⟩
  · intro s h1 h2
    constructor <;> simp [hbStep, h1, h2]
  · intro s h1
    refine ⟨by simp [hbStep, h1], by simp [hbStep, h1], ?_⟩
    simp [hbStep, h1]

/-- Witness for C8 at the default interval 5000: a connect-free trace ends
unscheduled; a completed refresh with no client stops the loop; a fresh
connection from the stopped initial state leads to a tick rescheduled
5000 ms later. -/
theorem heartbeat_stops_without_clients_witness :
    ((∀ e ∈ [HbEv.disconnectSys 0, HbEv.statDone, HbEv.timerFire], e ≠ HbEv.connectSys) ∧
      (hbRun 5000 [HbEv.disconnectSys 0, HbEv.statDone, HbEv.timerFire]).timer = none ∧
      (hbRun 5000 [HbEv.disconnectSys 0, HbEv.statDone, HbEv.timerFire]).running = false) ∧
    ((hbStep 5000 ⟨true, true, true, none⟩ HbEv.statDone).running = false ∧
      (hbStep 5000 ⟨true, true, true, none⟩ HbEv.statDone).timer = none) ∧
    ((hbStep 5000 hbInit HbEv.connectSys).running = true ∧
      (hbStep 5000 hbInit HbEv.connectSys).statBusy = true ∧
      (hbStep 5000 (hbStep 5000 hbInit HbEv.connectSys) HbEv.statDone).timer = some 5000) := by
  refine ⟨⟨by decide, ?_⟩, ?_, ?_⟩
  · exact (heartbeat_stops_without_clients 5000).1 _ (by decide)
  · have h := (heartbeat_stops_without_clients 5000).2.1 ⟨true, true, true, none⟩ rfl rfl
    exact ⟨h.1, h.2⟩
  · exact (heartbeat_stops_without_clients 5000).2.2 hbInit rfl

/-! ## Tail lifecycle (C9) -/

theorem lookupT_append_self (l : List (Nat × Nat)) (p h : Nat)
    (hl : lookupT l p = none) : lookupT (l ++ [(p, h)]) p = some h := by
  induction l with
  | nil => simp [lookupT]
  | cons hd t ih =>
    obtain ⟨k, v⟩ := hd
    by_cases hk : k = p
    · simp [lookupT, hk] at hl
    · simp only [lookupT, List.cons_append, if_neg hk] at hl ⊢
      exact ih hl

theorem countP_zero_of_lookupT_none (l : List (Nat × Nat)) (p : Nat)
    (hl : lookupT l p = none) : l.countP (fun kv => kv.1 == p) = 0 := by
  induction l with
  | nil => simp
  | cons hd t ih =>
    obtain ⟨k, v⟩ := hd
    by_cases hk : k = p
    · simp [lookupT, hk] at hl
    · simp only [lookupT, if_neg hk] at hl
      simp [List.countP_cons, hk, ih hl]

/-- Claim C9 (confirmed): starting from a registry with no handle for the
pid, two `ensureTail` calls leave exactly one registered handle for it,
the second call being a strict no-op; more generally any call made while a
handle already exists for the pid is a no-op. -/
theorem ensure_tail_idempotent (st : TailReg) (pid h1 h2 : Nat) (b : Bool)
    (hnone : lookupT st.tails pid = none) :
    startTailProcess (startTailProcess st pid h1 true) pid h2 b =
        startTailProcess st pid h1 true ∧
      (startTailProcess st pid h1 true).tails.countP (fun kv => kv.1 == pid) = 1 ∧
      (∀ (st2 : TailReg) (h3 : Nat) (b2 : Bool), (lookupT st2.tails pid).isSome →
        startTailProcess st2 pid h3 b2 = st2) := by
  have hstep : startTailProcess st pid h1 true = ⟨st.tails ++ [(pid, h1)]⟩ := by
    simp [startTailProcess, hnone]
  refine ⟨?_, ?_, ?_⟩
  · rw [hstep]
    simp [startTailProcess, lookupT_append_self st.tails pid h1 hnone]
  · rw [hstep]
    simp [List.countP_append, countP_zero_of_lookupT_none st.tails pid hnone]
  · intro st2 h3 b2 hsome
    simp [startTailProcess, hsome]

/-- Witness for C9: from the empty registry, two tail requests for pid 42
leave exactly one handle. -/
theorem ensure_tail_idempotent_witness :
    lookupT (TailReg.mk []).tails 42 = none ∧
      startTailProcess (startTailProcess ⟨[]⟩ 42 1 true) 42 2 true =
        startTailProcess ⟨[]⟩ 42 1 true ∧
      (startTailProcess ⟨[]⟩ 42 1 true).tails.countP (fun kv => kv.1 == 42) = 1 :=
  ⟨by decide, (ensure_tail_idempotent ⟨[]⟩ 42 1 2 true (by decide)).1,
    (ensure_tail_idempotent ⟨[]⟩ 42 1 2 true (by decide)).2.1⟩

/-! ## Disconnect sweeps (C5) -/

/-- Claim C5 (code bug): the log-namespace sweep respects the claimed-pid
invariant (a handle claimed by a connected socket via `_pm_id` survives,
an unclaimed one is removed), but the process-namespace sweep reads the
never-assigned `pid` property instead of `_pid`, so as soon as any socket
is connected it throws a `TypeError` (modelled as `none`) instead of
preserving the timer claimed via `_pid`; with no socket connected it
clears everything, as the claim wants. -/
theorem usage_sweep_reads_unset_pid :
    killTailProcess none [⟨some 42⟩] [(42, 7)] = [(42, 7)] ∧
      killTailProcess none [] [(42, 7)] = [] ∧
      killObserver [] [(42, 7)] = some [] ∧
      killObserver [⟨none, some 42⟩] [(42, 7)] = none := by
  refine ⟨by decide, by decide, by decide, by decide⟩

/-! ## Usage sampling error path (C6) -/

/-- Claim C6 (code bug): when a per-pid sample fails, the callback is
supposed to clear and remove the timer and broadcast an error payload, but
it dereferences the undeclared identifier `ctx` and throws an uncaught
`ReferenceError`; the timer registry is untouched and nothing is
broadcast, so the timer stays armed. -/
theorem usage_error_callback_throws :
    runTimerOnStat none ⟨[(42, 7)]⟩ 42 1000 (Except.error "sample failed") =
      JsResult.thrown "ReferenceError: ctx is not defined" := rfl

/-! ## Connection-string defaults (C7) -/

/-- Claim C7 (code bug): decoding a connection string without an explicit
port yields `port = none` (`null`), not the documented default 8088 - the
defaults object built at the top of `parseConnectionString` is
unconditionally overwritten from `url.parse`'s result; the authorization
default (empty) does hold on such input. -/
theorem parse_port_default_dead :
    (parseConnectionString ("127.0.0.1".toList)).port = none ∧
      (parseConnectionString ("127.0.0.1".toList)).hostname = "127.0.0.1".toList ∧
      (parseConnectionString ("127.0.0.1".toList)).authorization = [] := by
  refine ⟨by decide, by decide, by decide⟩

/-! ## Connect callbacks (C10) -/

def cbOk (st : CbState) : Prop :=
  (st.sCalled = false → st.sCount = 0) ∧ (st.fCalled = false → st.fCount = 0) ∧
    st.sCount ≤ 1 ∧ st.fCount ≤ 1

theorem cbStep_pres (st : CbState) (e : SockEv) (h : cbOk st) : cbOk (cbStep st e) := by
  obtain ⟨h1, h2, h3, h4⟩ := h
  cases e with
  | connected =>
    by_cases hs : st.sCalled = true
    · simp only [cbStep, if_pos hs]
      exact ⟨h1, h2, h3, h4⟩
    · have hs0 : st.sCalled = false := by simpa using hs
      have hc := h1 hs0
      simp only [cbStep, if_neg hs]
      refine ⟨?_, h2, ?_, h4⟩
      · intro hko; simp at hko
      · show st.sCount + 1 ≤ 1; omega
  | errored =>
    by_cases hf : st.fCalled = true
    · simp only [cbStep, if_pos hf]
      exact ⟨h1, h2, h3, h4⟩
    · have hf0 : st.fCalled = false := by simpa using hf
      have hc := h2 hf0
      simp only [cbStep, if_neg hf]
      refine ⟨h1, ?_, h3, ?_⟩
      · intro hko; simp at hko
      · show st.fCount + 1 ≤ 1; omega
  | connectErrored =>
    by_cases hf : st.fCalled = true
    · simp only [cbStep, if_pos hf]
      exact ⟨h1, h2, h3, h4⟩
    · have hf0 : st.fCalled = false := by simpa using hf
      have hc := h2 hf0
      simp only [cbStep, if_neg hf]
      refine ⟨h1, ?_, h3, ?_⟩
      · intro hko; simp at hko
      · show st.fCount + 1 ≤ 1; omega

/-- Claim C10 (confirmed): over any sequence of `connect`, `error` and
`connect_error` events on the underlying socket, the success callback and
the failure callback each run at most once; and a falsy `port` option
makes `connect` throw `Port is required!` before any connection attempt. -/
theorem connect_callbacks_at_most_once :
    (∀ evs : List SockEv, (cbRun evs).sCount ≤ 1 ∧ (cbRun evs).fCount ≤ 1) ∧
    (∀ e : Endpoint, jsFalsyPort e.port = true →
      connectStart e = Except.error "Port is required!") := by
  constructor
  · intro evs
    have h := foldlPres cbStep cbOk cbStep_pres evs cbInit
      ⟨fun _ => rfl, fun _ => rfl, by decide, by decide⟩
    exact ⟨h.2.2.1, h.2.2.2⟩
  · intro e he
    simp [connectStart, he]

/-! ## Environment filter (C3) -/

theorem lookupA_jsAssign (l : List (String × JVal)) (k kq : String) (v : JVal) :
    lookupA (jsAssign l k v) kq = if k = kq then some v else lookupA l kq := by
  induction l with
  | nil =>
    simp only [jsAssign, lookupA]
  | cons hd t ih =>
    obtain ⟨k0, v0⟩ := hd
    by_cases h0 : k0 = k
    · subst h0
      by_cases hq : k0 = kq
      · subst hq
        simp [jsAssign, lookupA]
      · simp [jsAssign, lookupA, hq]
    · by_cases hq : k0 = kq
      · subst hq
        have : ¬ k = k0 := fun h => h0 h.symm
        simp [jsAssign, lookupA, h0, this]
      · simp [jsAssign, lookupA, h0, hq, ih]

theorem lookupE_none_of_not_mem (t : List (String × String)) (k : String)
    (hk : k ∉ t.map Prod.fst) : lookupE t k = none := by
  induction t with
  | nil => rfl
  | cons hd r ih =>
    obtain ⟨k0, v0⟩ := hd
    simp only [List.map_cons, List.mem_cons] at hk
    push_neg at hk
    have h0 : ¬ k0 = k := fun h => hk.1 (h ▸ rfl)
    simp only [lookupE, if_neg h0]
    exact ih hk.2

theorem filterFold_lookup (env : List (String × String)) :
    ∀ (acc : List (String × JVal)) (k : String), (env.map Prod.fst).Nodup →
      lookupA
        (env.foldl
          (fun acc kv => if keepKey kv.1 then jsAssign acc kv.1 (some kv.2) else acc)
          acc) k =
        if keepKey k = true ∧ (lookupE env k).isSome = true then (lookupE env k).map some
        else lookupA acc k := by
  induction env with
  | nil =>
    intro acc k _
    simp [lookupE]
  | cons hd t ih =>
    intro acc k hnd
    obtain ⟨a, b⟩ := hd
    simp only [List.map_cons, List.nodup_cons] at hnd
    obtain ⟨ha, ht⟩ := hnd
    rw [List.foldl_cons, ih _ k ht]
    by_cases hak : a = k
    · subst hak
      have htn : lookupE t a = none := lookupE_none_of_not_mem t a ha
      by_cases hkk : keepKey a = true
      · simp [htn, hkk, lookupA_jsAssign, lookupE]
      · simp [htn, hkk, lookupE]
    · have hlk : lookupE ((a, b) :: t) k = lookupE t k := by
        simp [lookupE, hak]
      rw [hlk]
      by_cases hcond : keepKey k = true ∧ (lookupE t k).isSome = true
      · simp [hcond]
      · simp only [if_neg hcond]
        by_cases hka : keepKey a = true
        · simp [hka, lookupA_jsAssign, hak]
        · simp [hka]

/-- Counterexample for C3: on an environment that already carries a
passing lower-case `user` key, the filtered object maps `user` to the
original `user` value, not to the raw `USER` field as the claim states. -/
theorem env_filter_counterexample :
    lookupA (filterEnv [("user", "x"), ("USER", "alice")]) "user" ≠
        some (some "alice") ∧
      lookupA (filterEnv [("user", "x"), ("USER", "alice")]) "user" = some (some "x") := by
  refine ⟨by decide, by decide⟩

/-- Claim C3 (corrected): for every raw environment with distinct keys,
the filtered environment maps every original key that passes the filter
(does not start with an underscore or `axm_`, is not `versioning` or
`command`, first code point above 90) to its original value, maps `user`
to the raw `USER` field unless a passing original `user` entry overrides
it, and contains nothing else; on the claim's concrete input this yields
exactly user = alice, user_key = v. -/
theorem env_filter_amended (env : List (String × String))
    (hnd : (env.map Prod.fst).Nodup) (k : String) :
    lookupA (filterEnv env) k = amendedEnvLookup env k := by
  unfold filterEnv amendedEnvLookup
  rw [filterFold_lookup env _ k hnd]
  by_cases hcond : keepKey k = true ∧ (lookupE env k).isSome = true
  · simp [hcond]
  · simp only [if_neg hcond, lookupA]
    by_cases hu : k = "user"
    · subst hu
      simp
    · have : ¬ ("user" = k) := fun h => hu h.symm
      simp [this, hu]

/-- Witness for C3: the concrete environment of the claim has distinct
keys, the amended characterization applies to it, and the filtered result
is exactly user = alice, user_key = v. -/
theorem env_filter_amended_witness :
    (([("_internal", "1"), ("axm_monitor", "1"), ("versioning", "x"), ("command", "y"),
        ("PORT", "80"), ("user_key", "v"), ("USER", "alice")].map Prod.fst).Nodup) ∧
      filterEnv [("_internal", "1"), ("axm_monitor", "1"), ("versioning", "x"),
          ("command", "y"), ("PORT", "80"), ("user_key", "v"), ("USER", "alice")] =
        [("user", some "alice"), ("user_key", some "v")] ∧
      lookupA (filterEnv [("_internal", "1"), ("axm_monitor", "1"), ("versioning", "x"),
          ("command", "y"), ("PORT", "80"), ("user_key", "v"), ("USER", "alice")]) "user" =
        amendedEnvLookup [("_internal", "1"), ("axm_monitor", "1"), ("versioning", "x"),
          ("command", "y"), ("PORT", "80"), ("user_key", "v"), ("USER", "alice")] "user" :=
  ⟨by decide, by decide,
    env_filter_amended _ (by decide) "user"⟩

/-- Witness for C10: duplicated socket events still yield single calls,
and a port-less option object throws. -/
theorem connect_callbacks_at_most_once_witness :
    ((cbRun [SockEv.connected, SockEv.connected, SockEv.errored, SockEv.connectErrored]).sCount ≤ 1 ∧
      (cbRun [SockEv.connected, SockEv.connected, SockEv.errored, SockEv.connectErrored]).fCount ≤ 1) ∧
    (jsFalsyPort (Endpoint.mk [] [] none [] [] []).port = true ∧
      connectStart ⟨[], [], none, [], [], []⟩ = Except.error "Port is required!") :=
  ⟨connect_callbacks_at_most_once.1 [SockEv.connected, SockEv.connected, SockEv.errored, SockEv.connectErrored],
    ⟨by decide, connect_callbacks_at_most_once.2 ⟨[], [], none, [], [], []⟩ (by decide)⟩⟩

end Pm2Gui
